import Mathlib

/-!
Verification of the streaming-ingestion and progress-derivation pipeline of
the geocoder frontend (`src/components/GeocoderApp.tsx`).

The embedding covers, faithfully to the source:
* the SSE read loop of `processFile` (streaming variant): a stateful
  incremental UTF-8 text decoder (`TextDecoder` with `stream: true`,
  modelled byte by byte), the accumulate/split-on-newline buffer, the
  `data: ` line filter and the end-of-stream flush of the pending buffer;
* `JSON.parse`, modelled by an executable JSON parser over lists of
  characters (JSON numbers are modelled as rationals, as are all numeric
  values of the app: JavaScript floating-point rounding is out of scope);
* `handleSSEEvent` and the surrounding `try`/`catch` of the read loop,
  including the `atob` base64 decoder (forgiving-base64) used on the
  `complete` event and the fact that an exception thrown inside
  `handleSSEEvent` is caught by the loop's `catch` and reported with
  `console.warn` (modelled by a warning counter);
* the `catch` block of `processFile` for transport-level failures;
* the synthetic progress interval of the fallback (one-shot) variant
  (`Math.random()` is modelled by an arbitrary rational in `[0,1)`);
* the `X-Processing-Stats` header handling of the fallback variant.

Modelling notes.  A JavaScript number stored in the `progress` state is
modelled as `Option ℚ`: `some q` is a finite value, `none` is the
non-finite value (`Infinity`/`NaN`) produced by a division by zero.
Wall-clock timestamps of log entries and the elapsed-time ticker are not
modelled.  Payloads that parse as JSON but do not carry the fields read by
`handleSSEEvent` with the expected primitive types are outside the modelled
event domain (`extractEvent` returns `none` for them); no claim depends on
their dynamics.
-/

set_option maxRecDepth 8000

namespace GeocoderApp

/-! ## Incremental UTF-8 decoding (TextDecoder with stream: true) -/

/-- Replacement character U+FFFD emitted by `TextDecoder` on invalid input. -/
def repChar : Char := Char.ofNat 0xFFFD

/-- Is `b` a UTF-8 continuation byte (`0x80 ≤ b < 0xC0`)? -/
def isCont (b : Nat) : Bool := decide (0x80 ≤ b ∧ b < 0xC0)

/-- Total sequence length started by a lead byte; `0` when the byte cannot
start a sequence. -/
def leadLen (b : Nat) : Nat :=
  if b < 0x80 then 1
  else if b < 0xC2 then 0
  else if b < 0xE0 then 2
  else if b < 0xF0 then 3
  else if b < 0xF5 then 4
  else 0

/-- Code point assembled from a two-byte UTF-8 sequence. -/
def char2 (l b : Nat) : Char := Char.ofNat ((l % 0x20) * 0x40 + b % 0x40)

/-- Code point assembled from a three-byte UTF-8 sequence. -/
def char3 (l c1 b : Nat) : Char :=
  Char.ofNat (((l % 0x10) * 0x40 + c1 % 0x40) * 0x40 + b % 0x40)

/-- Code point assembled from a four-byte UTF-8 sequence. -/
def char4 (l c1 c2 b : Nat) : Char :=
  Char.ofNat ((((l % 8) * 0x40 + c1 % 0x40) * 0x40 + c2 % 0x40) * 0x40 + b % 0x40)

/-- Process one byte with no pending lead bytes. -/
def utf8Fresh (b : Nat) : List Nat × List Char :=
  if b < 0x80 then ([], [Char.ofNat b])
  else if 2 ≤ leadLen b then ([b], [])
  else ([], [repChar])

/-- One step of the stateful decoder: pending bytes of an incomplete
sequence plus the next byte give new pending bytes and emitted characters.
On malformed input a replacement character is emitted and the byte is
reprocessed fresh (the exact WHATWG error recovery is approximated; all
claims concern valid streams, on which this decoder agrees with
`TextDecoder`). -/
def utf8Byte (p : List Nat) (b : Nat) : List Nat × List Char :=
  match p with
  | [] => utf8Fresh b
  | [l] =>
    if isCont b then
      if l < 0xE0 then ([], [char2 l b]) else ([l, b], [])
    else ((utf8Fresh b).1, repChar :: (utf8Fresh b).2)
  | [l, c1] =>
    if isCont b then
      if l < 0xF0 then ([], [char3 l c1 b]) else ([l, c1, b], [])
    else ((utf8Fresh b).1, repChar :: (utf8Fresh b).2)
  | [l, c1, c2] =>
    if isCont b then ([], [char4 l c1 c2 b])
    else ((utf8Fresh b).1, repChar :: (utf8Fresh b).2)
  | _ => ([], [])

/-- Stateful decoding of a whole chunk, byte by byte. -/
def utf8Chunk (p : List Nat) : List Nat → List Nat × List Char
  | [] => (p, [])
  | b :: bs =>
    ((utf8Chunk (utf8Byte p b).1 bs).1,
     (utf8Byte p b).2 ++ (utf8Chunk (utf8Byte p b).1 bs).2)

/-- Characters produced by decoding a byte stream from the initial decoder
state (the trailing incomplete sequence, if any, is dropped, as in the
source, which never flushes the decoder). -/
def utf8Decode (S : List Nat) : List Char := (utf8Chunk [] S).2

/-! ## Line splitting of the read-loop buffer

`buffer.split('\n')` followed by `buffer = lines.pop() || ''`: the first
component is the fully terminated lines, the second the trailing
unterminated remainder. -/

/-- Split on newline: fully terminated lines plus trailing remainder. -/
def splitLines : List Char → List (List Char) × List Char
  | [] => ([], [])
  | c :: cs =>
    if c = '\n' then ([] :: (splitLines cs).1, (splitLines cs).2)
    else
      match splitLines cs with
      | ([], r) => ([], c :: r)
      | (l :: ls, r) => ((c :: l) :: ls, r)

/-- How two split results compose when the underlying texts are
concatenated. -/
def splitMerge (a b : List (List Char) × List Char) :
    List (List Char) × List Char :=
  match b with
  | ([], rb) => (a.1, a.2 ++ rb)
  | (l :: ls, rb) => (a.1 ++ (a.2 ++ l) :: ls, rb)

/-! ## Frame decoder (read loop of `processFile`, streaming variant) -/

/-- Fixed frame marker `"data: "` (six characters). -/
def sseMark : List Char := ['d', 'a', 't', 'a', ':', ' ']

/-- Does a line begin with the `"data: "` marker (`line.startsWith`)? -/
def isFrame (l : List Char) : Bool := sseMark.isPrefixOf l

/-- State of the read loop: pending bytes of the incremental text decoder,
the unterminated text buffer, and the frames emitted so far. -/
structure FrameDecoderState where
  pendingBytes : List Nat
  buffer : List Char
  frames : List (List Char)
  deriving Repr

/-- Initial state: empty decoder, empty buffer, no frames. -/
def initDecoder : FrameDecoderState := ⟨[], [], []⟩

/-- One iteration of the read loop on a received chunk: decode it
statefully, append to the buffer, split on newlines, keep the remainder as
the new buffer and emit every terminated line that starts with `"data: "`
as a frame (non-matching lines are discarded silently). -/
def feed (st : FrameDecoderState) (chunk : List Nat) : FrameDecoderState :=
  { pendingBytes := (utf8Chunk st.pendingBytes chunk).1,
    buffer := (splitLines (st.buffer ++ (utf8Chunk st.pendingBytes chunk).2)).2,
    frames := st.frames ++
      ((splitLines (st.buffer ++ (utf8Chunk st.pendingBytes chunk).2)).1.filter isFrame) }

/-- End-of-stream flush (`done` branch): the still-pending buffer is
emitted as a final frame when it starts with `"data: "`, otherwise
discarded. -/
def finishFrames (st : FrameDecoderState) : List (List Char) :=
  st.frames ++ (if isFrame st.buffer then [st.buffer] else [])

/-- Frames produced by running the read loop over a chunk sequence and then
flushing at end of stream. -/
def decodeRun (chunks : List (List Nat)) : List (List Char) :=
  finishFrames (chunks.foldl feed initDecoder)

/-- All lines of the complete decoded input: the terminated lines plus the
final (possibly empty) unterminated line. -/
def inputLines (S : List Nat) : List (List Char) :=
  (splitLines (utf8Decode S)).1 ++ [(splitLines (utf8Decode S)).2]

/-! ## JSON values and `JSON.parse` -/

/-- JSON values; numbers are modelled as rationals. -/
inductive Json where
  | null
  | bool (b : Bool)
  | num (q : ℚ)
  | str (s : String)
  | arr (elems : List Json)
  | obj (fields : List (String × Json))

/-- JSON whitespace accepted by `JSON.parse`. -/
def isJsonWs (c : Char) : Bool := c = ' ' ∨ c = '\t' ∨ c = '\n' ∨ c = '\r'

/-- Drop leading JSON whitespace. -/
def skipWs (cs : List Char) : List Char := cs.dropWhile isJsonWs

/-- Numeric value of a decimal digit character. -/
def digitVal (c : Char) : Nat := c.toNat - 48

/-- Numeric value of a hexadecimal digit character, if any. -/
def hexVal (c : Char) : Option Nat :=
  if c.isDigit then some (digitVal c)
  else if 'a' ≤ c ∧ c ≤ 'f' then some (c.toNat - 97 + 10)
  else if 'A' ≤ c ∧ c ≤ 'F' then some (c.toNat - 65 + 10)
  else none

/-- Natural number denoted by a list of decimal digits. -/
def natOfDigits (ds : List Char) : Nat :=
  ds.foldl (fun n c => n * 10 + digitVal c) 0

/-- Body of a JSON string after the opening quote: the decoded characters
and the input after the closing quote.  Invalid escapes are rejected, as by
`JSON.parse`; raw control characters are accepted (a strict superset of
`JSON.parse`, harmless for the claims). -/
def parseStringBody : List Char → Option (List Char × List Char)
  | [] => none
  | '"' :: rest => some ([], rest)
  | '\\' :: e :: rest =>
    if e = 'u' then
      match rest with
      | h1 :: h2 :: h3 :: h4 :: rest2 =>
        match hexVal h1, hexVal h2, hexVal h3, hexVal h4 with
        | some a, some b, some c, some d =>
          (parseStringBody rest2).map
            (fun p => (Char.ofNat (((a * 16 + b) * 16 + c) * 16 + d) :: p.1, p.2))
        | _, _, _, _ => none
      | _ => none
    else if e = '"' then (parseStringBody rest).map (fun p => ('"' :: p.1, p.2))
    else if e = '\\' then (parseStringBody rest).map (fun p => ('\\' :: p.1, p.2))
    else if e = '/' then (parseStringBody rest).map (fun p => ('/' :: p.1, p.2))
    else if e = 'b' then (parseStringBody rest).map (fun p => (Char.ofNat 8 :: p.1, p.2))
    else if e = 'f' then (parseStringBody rest).map (fun p => (Char.ofNat 12 :: p.1, p.2))
    else if e = 'n' then (parseStringBody rest).map (fun p => ('\n' :: p.1, p.2))
    else if e = 'r' then (parseStringBody rest).map (fun p => ('\r' :: p.1, p.2))
    else if e = 't' then (parseStringBody rest).map (fun p => ('\t' :: p.1, p.2))
    else none
  | c :: rest => (parseStringBody rest).map (fun p => (c :: p.1, p.2))

/-- Exponent digits of a JSON number. -/
def parseExpDigits (m : ℚ) (neg : Bool) (cs : List Char) :
    Option (ℚ × List Char) :=
  if (cs.takeWhile Char.isDigit).isEmpty then none
  else
    some (if neg then m / 10 ^ natOfDigits (cs.takeWhile Char.isDigit)
          else m * 10 ^ natOfDigits (cs.takeWhile Char.isDigit),
          cs.dropWhile Char.isDigit)

/-- Optional exponent sign of a JSON number. -/
def parseExpTail (m : ℚ) (cs : List Char) : Option (ℚ × List Char) :=
  match cs with
  | '+' :: rest => parseExpDigits m false rest
  | '-' :: rest => parseExpDigits m true rest
  | _ => parseExpDigits m false cs

/-- Optional exponent part of a JSON number. -/
def parseExp (m : ℚ) (cs : List Char) : Option (ℚ × List Char) :=
  match cs with
  | 'e' :: rest => parseExpTail m rest
  | 'E' :: rest => parseExpTail m rest
  | _ => some (m, cs)

/-- Optional fractional part of a JSON number. -/
def parseFrac (i : ℚ) (cs : List Char) : Option (ℚ × List Char) :=
  match cs with
  | '.' :: rest =>
    if (rest.takeWhile Char.isDigit).isEmpty then none
    else parseExp
      (i + (natOfDigits (rest.takeWhile Char.isDigit) : ℚ) /
        10 ^ (rest.takeWhile Char.isDigit).length)
      (rest.dropWhile Char.isDigit)
  | _ => parseExp i cs

/-- Unsigned JSON number. -/
def parseNumberCore (cs : List Char) : Option (ℚ × List Char) :=
  if (cs.takeWhile Char.isDigit).isEmpty then none
  else parseFrac (natOfDigits (cs.takeWhile Char.isDigit) : ℚ)
    (cs.dropWhile Char.isDigit)

/-- JSON number with optional leading minus sign. -/
def parseNumber (cs : List Char) : Option (ℚ × List Char) :=
  match cs with
  | '-' :: rest => (parseNumberCore rest).map (fun p => (-p.1, p.2))
  | _ => parseNumberCore cs

mutual

/-- JSON value (fuelled recursive descent; the fuel used by `parseJsonChars`
always suffices, see there). -/
def parseValue : Nat → List Char → Option (Json × List Char)
  | 0, _ => none
  | fuel + 1, cs =>
    match skipWs cs with
    | [] => none
    | c :: rest =>
      if c = '{' then
        match skipWs rest with
        | '}' :: r2 => some (.obj [], r2)
        | r2 => (parseMembers fuel r2).map (fun p => (.obj p.1, p.2))
      else if c = '[' then
        match skipWs rest with
        | ']' :: r2 => some (.arr [], r2)
        | r2 => (parseElems fuel r2).map (fun p => (.arr p.1, p.2))
      else if c = '"' then
        (parseStringBody rest).map (fun p => (.str (String.mk p.1), p.2))
      else if c = 't' then
        match rest with
        | 'r' :: 'u' :: 'e' :: r2 => some (.bool true, r2)
        | _ => none
      else if c = 'f' then
        match rest with
        | 'a' :: 'l' :: 's' :: 'e' :: r2 => some (.bool false, r2)
        | _ => none
      else if c = 'n' then
        match rest with
        | 'u' :: 'l' :: 'l' :: r2 => some (.null, r2)
        | _ => none
      else (parseNumber (c :: rest)).map (fun p => (.num p.1, p.2))

/-- Nonempty member list of a JSON object, up to and including the closing
brace. -/
def parseMembers : Nat → List Char → Option (List (String × Json) × List Char)
  | 0, _ => none
  | fuel + 1, cs =>
    match skipWs cs with
    | '"' :: rest =>
      match parseStringBody rest with
      | none => none
      | some (key, r1) =>
        match skipWs r1 with
        | ':' :: r2 =>
          match parseValue fuel r2 with
          | none => none
          | some (v, r3) =>
            match skipWs r3 with
            | ',' :: r4 =>
              (parseMembers fuel r4).map
                (fun p => ((String.mk key, v) :: p.1, p.2))
            | '}' :: r4 => some ([(String.mk key, v)], r4)
            | _ => none
        | _ => none
    | _ => none

/-- Nonempty element list of a JSON array, up to and including the closing
bracket. -/
def parseElems : Nat → List Char → Option (List Json × List Char)
  | 0, _ => none
  | fuel + 1, cs =>
    match parseValue fuel cs with
    | none => none
    | some (v, r1) =>
      match skipWs r1 with
      | ',' :: r2 => (parseElems fuel r2).map (fun p => (v :: p.1, p.2))
      | ']' :: r2 => some ([v], r2)
      | _ => none

end

/-- Model of `JSON.parse` on a character list: parse one value, require
only whitespace after it.  Fuel `2 * length + 2` is enough for any input:
every two units of fuel spent consume at least one input character. -/
def parseJsonChars (cs : List Char) : Option Json :=
  match parseValue (2 * cs.length + 2) cs with
  | some (j, rest) => if (skipWs rest).isEmpty then some j else none
  | none => none

/-- Model of `JSON.parse` on a string. -/
def parseJsonStr (s : String) : Option Json := parseJsonChars s.toList

/-- First field of a JSON object with the given key (property read). -/
def getField : List (String × Json) → String → Option Json
  | [], _ => none
  | (k, v) :: rest, key => if k = key then some v else getField rest key

/-- Numeric field value, when present with a number. -/
def asNum : Option Json → Option ℚ
  | some (.num q) => some q
  | _ => none

/-- String field value, when present with a string. -/
def asStr : Option Json → Option String
  | some (.str s) => some s
  | _ => none

/-! ## Typed SSE events and the event parser -/

/-- Typed events dispatched by `handleSSEEvent` on the `type` field. -/
inductive SSEData where
  | start (total : ℚ)
  | progress (procesadas total : ℚ) (status : Option String) (row : Option ℚ)
      (direccion municipio cp : Option String)
  | rowError (row : Option ℚ) (error : Option String)
  | error (message : String)
  | complete (procesadas encontradas noEncontradas errores : ℚ)
      (elapsed : String) (file : Option String) (filename : Option String)
  deriving DecidableEq

/-- Typed event extracted from a parsed JSON payload.  Payloads with an
unknown or missing `type` yield `none` (the `switch` falls through
silently); payloads of a known type whose required fields are absent or of
the wrong primitive type also yield `none` (outside the modelled domain,
see the header comment). -/
def extractEvent (j : Json) : Option SSEData :=
  match j with
  | .obj fs =>
    match asStr (getField fs "type") with
    | some "start" => (asNum (getField fs "total")).map .start
    | some "progress" =>
      match getField fs "stats" with
      | some (.obj sfs) =>
        match asNum (getField sfs "procesadas"), asNum (getField fs "total") with
        | some p, some t =>
          some (.progress p t (asStr (getField fs "status"))
            (asNum (getField fs "row")) (asStr (getField fs "direccion"))
            (asStr (getField fs "municipio")) (asStr (getField fs "cp")))
        | _, _ => none
      | _ => none
    | some "row_error" =>
      some (.rowError (asNum (getField fs "row")) (asStr (getField fs "error")))
    | some "error" => (asStr (getField fs "message")).map .error
    | some "complete" =>
      match getField fs "stats" with
      | some (.obj sfs) =>
        match asNum (getField sfs "procesadas"), asNum (getField sfs "encontradas"),
              asNum (getField sfs "no_encontradas"), asNum (getField sfs "errores"),
              asStr (getField fs "elapsed") with
        | some p, some e, some n, some er, some el =>
          some (.complete p e n er el (asStr (getField fs "file"))
            (asStr (getField fs "filename")))
        | _, _, _, _, _ => none
      | _ => none
    | _ => none
  | _ => none

/-! ## Base64 decoding (`atob`, forgiving-base64) -/

/-- ASCII whitespace removed by forgiving-base64. -/
def isB64Ws (c : Char) : Bool :=
  c = ' ' ∨ c = '\t' ∨ c = '\n' ∨ c = '\r' ∨ c = Char.ofNat 12

/-- Value of one base64 alphabet character. -/
def b64Val (c : Char) : Option Nat :=
  if 'A' ≤ c ∧ c ≤ 'Z' then some (c.toNat - 65)
  else if 'a' ≤ c ∧ c ≤ 'z' then some (c.toNat - 97 + 26)
  else if c.isDigit then some (c.toNat - 48 + 52)
  else if c = '+' then some 62
  else if c = '/' then some 63
  else none

/-- Remove up to two trailing padding characters. -/
def dropPadding (cs : List Char) : List Char :=
  match cs.reverse with
  | '=' :: '=' :: rest => rest.reverse
  | '=' :: rest => rest.reverse
  | _ => cs

/-- Reassemble bytes from six-bit groups. -/
def b64Bytes : List Nat → List Nat
  | a :: b :: c :: d :: rest =>
    (a * 4 + b / 16) :: ((b % 16) * 16 + c / 4) :: ((c % 4) * 64 + d) ::
      b64Bytes rest
  | [a, b] => [a * 4 + b / 16]
  | [a, b, c] => [a * 4 + b / 16, (b % 16) * 16 + c / 4]
  | _ => []

/-- Model of `atob`: forgiving-base64 decode to a byte list, `none` when
`atob` would throw `InvalidCharacterError`. -/
def atobModel (input : String) : Option (List Nat) :=
  ((fun cs => if cs.length % 4 = 1 then none
    else (cs.mapM b64Val).map b64Bytes) ∘
   (fun cs => if cs.length % 4 = 0 then dropPadding cs else cs))
  (input.toList.filter (fun c => ¬ isB64Ws c))

/-! ## Application state and the event handler -/

/-- Result counters rendered in the summary card (`ProcessingResult`). -/
structure ProcessingResult where
  total : ℚ
  encontrados : ℚ
  noEncontrados : ℚ
  errores : ℚ
  deriving DecidableEq

/-- Kinds of log entries. -/
inductive LogType where
  | info
  | found
  | notFound
  | error
  | complete
  deriving DecidableEq

/-- One log entry (`LogEntry`; the wall-clock timestamp is not modelled). -/
structure LogEntry where
  id : Nat
  type : LogType
  row : Option ℚ
  direccion : Option String
  municipio : Option String
  cp : Option String
  message : Option String
  deriving DecidableEq

/-- Component state mutated by the streaming pipeline.  `progress` is
`none` when a non-finite number was stored; `warnings` counts
`console.warn` emissions of the read loop's `catch` blocks. -/
structure AppState where
  progress : Option ℚ
  totalRows : ℚ
  result : Option ProcessingResult
  downloadUrl : Option (List Nat)
  downloadFilename : Option String
  error : Option String
  logEntries : List LogEntry
  logId : Nat
  warnings : Nat

/-- State set at the start of `processFile` (streaming variant). -/
def initialState : AppState :=
  { progress := some 0, totalRows := 0, result := none, downloadUrl := none,
    downloadFilename := some "resultado.xlsx", error := none,
    logEntries := [], logId := 0, warnings := 0 }

/-- Append a log entry (`addLogEntry`): increment the id counter and append
with the new id. -/
def addLog (s : AppState) (t : LogType) (row : Option ℚ)
    (dir mun cp msg : Option String) : AppState :=
  { s with
    logId := s.logId + 1
    logEntries := s.logEntries ++ [⟨s.logId + 1, t, row, dir, mun, cp, msg⟩] }

/-- Model of `handleSSEEvent`.  The boolean is true when the handler threw
(only `atob` on the `complete` event can throw); state mutations performed
before the throw are kept, as in the source. -/
def handleSSEEvent (d : SSEData) (s : AppState) : AppState × Bool :=
  match d with
  | .start total =>
    (addLog { s with totalRows := total } .info none none none none
      (some ("Archivo cargado: " ++ toString total ++ " filas detectadas")),
     false)
  | .progress p t status row dir mun cp =>
    (addLog
      { s with progress :=
          if t = 0 then none else some ((round (p / t * 100) : ℤ) : ℚ) }
      (if status = some "found" then .found else .notFound)
      row dir mun cp none,
     false)
  | .rowError row msg => (addLog s .error row none none none msg, false)
  | .error m =>
    ({ addLog s .error none none none none (some m) with error := some m },
     false)
  | .complete p e n er el file fname =>
    match file with
    | none =>
      (addLog { s with progress := some 100, result := some ⟨p, e, n, er⟩ }
        .complete none none none none (some ("Completado en " ++ el)), false)
    | some f =>
      if f = "" then
        (addLog { s with progress := some 100, result := some ⟨p, e, n, er⟩ }
          .complete none none none none (some ("Completado en " ++ el)), false)
      else
        match atobModel f with
        | none =>
          (addLog { s with progress := some 100, result := some ⟨p, e, n, er⟩ }
            .complete none none none none (some ("Completado en " ++ el)), true)
        | some bytes =>
          ({ addLog
              { s with progress := some 100, result := some ⟨p, e, n, er⟩ }
              .complete none none none none (some ("Completado en " ++ el)) with
             downloadUrl := some bytes
             downloadFilename := fname },
           false)

/-- Transport-level failure (`catch` block of `processFile`): append a
fatal log entry and store the error. -/
def handleTransportError (m : String) (s : AppState) : AppState :=
  { addLog s .error none none none none (some ("Error: " ++ m))
    with error := some m }

/-- Outcome of one line of the read loop, determined by the line alone. -/
inductive LineOutcome where
  | skip
  | warn
  | event (d : SSEData)
  deriving DecidableEq

/-- Classify one line: non-frames are skipped, frames whose payload fails
`JSON.parse` warn, parsed payloads outside the event domain are ignored,
the rest carry an event. -/
def lineOutcome (line : List Char) : LineOutcome :=
  if isFrame line then
    match parseJsonChars (line.drop 6) with
    | none => .warn
    | some j =>
      match extractEvent j with
      | none => .skip
      | some d => .event d
  else .skip

/-- Body of the per-line loop: `if (line.startsWith('data: ')) try {
JSON.parse(line.slice(6)); handleSSEEvent(data) } catch { console.warn }`.
A throw inside `handleSSEEvent` is caught here too. -/
def processLine (s : AppState) (line : List Char) : AppState :=
  match lineOutcome line with
  | .skip => s
  | .warn => { s with warnings := s.warnings + 1 }
  | .event d =>
    if (handleSSEEvent d s).2 then
      { (handleSSEEvent d s).1 with
        warnings := (handleSSEEvent d s).1.warnings + 1 }
    else (handleSSEEvent d s).1

/-- Process a sequence of lines in arrival order. -/
def processLines (s : AppState) (lines : List (List Char)) : AppState :=
  lines.foldl processLine s

/-! ## Synthetic progress estimator (fallback variant) -/

/-- One tick of the fallback progress interval; `r` models the value of
`Math.random()`, a number in `[0,1)`. -/
def tick (prev r : ℚ) : ℚ :=
  if prev < 30 then min 99 (prev + r * 8)
  else if prev < 60 then min 99 (prev + r * 5)
  else if prev < 85 then min 99 (prev + r * 2)
  else if prev < 95 then min 99 (prev + r * (1 / 2))
  else min 99 (min 99 (prev + r * (1 / 10)))

/-- Width of the random step band for the current value, as in the source's
branch structure. -/
def bandWidth (prev : ℚ) : ℚ :=
  if prev < 30 then 8
  else if prev < 60 then 5
  else if prev < 85 then 2
  else if prev < 95 then 1 / 2
  else 1 / 10

/-! ## Fallback `X-Processing-Stats` summary -/

/-- Summary fields as stored by the fallback path; kept as JSON values
because the source stores whatever the header carried. -/
structure FallbackSummary where
  total : Json
  encontrados : Json
  noEncontrados : Json
  errores : Json

/-- All-zero summary. -/
def zeroSummary : FallbackSummary := ⟨.num 0, .num 0, .num 0, .num 0⟩

/-- Model of `x ?? 0`: `undefined` (absent field) and `null` give `0`; any
other value, including a present `0`, is kept. -/
def nullishZero : Option Json → Json
  | none => .num 0
  | some .null => .num 0
  | some v => v

/-- Stats parsed from the `X-Processing-Stats` header: `none` models the
`stats` variable staying `null` (header absent, `JSON.parse` threw, or the
property access on `null` threw inside the same `try`).  Property access on
a non-null non-object yields `undefined`, so `?? 0` gives zeros. -/
def statsOfHeader : Option String → Option FallbackSummary
  | none => none
  | some h =>
    match parseJsonStr h with
    | none => none
    | some .null => none
    | some (.obj fs) =>
      some ⟨nullishZero (getField fs "procesadas"),
            nullishZero (getField fs "encontradas"),
            nullishZero (getField fs "no_encontradas"),
            nullishZero (getField fs "errores")⟩
    | some _ => some zeroSummary

/-- Summary finally displayed by the fallback path: the parsed stats, or
all zeros when `stats` stayed `null`. -/
def fallbackSummary (h : Option String) : FallbackSummary :=
  (statsOfHeader h).getD zeroSummary

/-! ## Canonical decoder state and concrete frames used in the theorems -/

/-- Read-loop state determined by the complete byte stream fed so far. -/
def canonicalState (S : List Nat) : FrameDecoderState :=
  { pendingBytes := (utf8Chunk [] S).1,
    buffer := (splitLines (utf8Decode S)).2,
    frames := (splitLines (utf8Decode S)).1.filter isFrame }

/-- Concrete `error` frame used for the post-error continuation theorem. -/
def errLine : List Char :=
  "data: \x7b\"type\":\"error\",\"message\":\"boom\"\x7d".toList

/-- Concrete `progress` frame used for the post-error continuation
theorem. -/
def progLine : List Char :=
  "data: \x7b\"type\":\"progress\",\"stats\":\x7b\"procesadas\":1\x7d,\"total\":2,\"status\":\"found\",\"row\":1,\"direccion\":\"A\",\"municipio\":\"M\",\"cp\":\"28001\"\x7d".toList

/-- Concrete `complete` frame (with base64 payload `"QUJD"`, the bytes of
`ABC`) used for the post-error continuation theorem. -/
def compLine : List Char :=
  "data: \x7b\"type\":\"complete\",\"stats\":\x7b\"procesadas\":2,\"encontradas\":1,\"no_encontradas\":1,\"errores\":0\x7d,\"elapsed\":\"5s\",\"file\":\"QUJD\",\"filename\":\"r.xlsx\"\x7d".toList

/-- Concrete `complete` payload whose base64 file field (`"!!!"`) makes
`atob` throw; used for the artifact-decode-failure witness. -/
def badCompPayload : List Char :=
  "\x7b\"type\":\"complete\",\"stats\":\x7b\"procesadas\":2,\"encontradas\":1,\"no_encontradas\":1,\"errores\":0\x7d,\"elapsed\":\"5s\",\"file\":\"!!!\",\"filename\":\"r.xlsx\"\x7d".toList

/-! ## Lemmas: the incremental decoder and line splitter -/

lemma utf8Chunk_append (a b : List Nat) (p : List Nat) :
    utf8Chunk p (a ++ b) =
      ((utf8Chunk (utf8Chunk p a).1 b).1,
       (utf8Chunk p a).2 ++ (utf8Chunk (utf8Chunk p a).1 b).2) := by
  induction a generalizing p with
  | nil => simp [utf8Chunk]
  | cons x xs ih => simp [utf8Chunk, ih, List.append_assoc]

lemma splitLines_append (xs ys : List Char) :
    splitLines (xs ++ ys) = splitMerge (splitLines xs) (splitLines ys) := by
  induction xs with
  | nil =>
    rcases h : splitLines ys with ⟨ls, r⟩
    cases ls <;> simp [splitLines, splitMerge, h]
  | cons c xs ih =>
    rcases h1 : splitLines xs with ⟨lxs, rxs⟩
    rcases h2 : splitLines ys with ⟨lys, rys⟩
    by_cases hc : c = '\n' <;>
      cases lxs <;> cases lys <;>
        simp [splitLines, splitMerge, hc, h1, h2, ih, List.append_assoc]

lemma splitLines_rem_noNl (cs : List Char) : '\n' ∉ (splitLines cs).2 := by
  induction cs with
  | nil => simp [splitLines]
  | cons c cs ih =>
    by_cases hc : c = '\n'
    · simp [splitLines, hc, ih]
    · rcases h : splitLines cs with ⟨ls, r⟩
      rw [h] at ih
      cases ls <;> simp_all [splitLines, hc]
      exact fun hh => hc hh.symm

lemma splitLines_of_noNl (r : List Char) (h : '\n' ∉ r) :
    splitLines r = ([], r) := by
  induction r with
  | nil => simp [splitLines]
  | cons c cs ih =>
    simp only [List.mem_cons, not_or] at h
    have hc : ¬ c = '\n' := fun hh => h.1 hh.symm
    simp [splitLines, hc, ih h.2]

lemma feed_canonical (S : List Nat) (c : List Nat) :
    feed (canonicalState S) c = canonicalState (S ++ c) := by
  have hrem := splitLines_of_noNl ((splitLines (utf8Chunk [] S).2).2)
    (splitLines_rem_noNl (utf8Chunk [] S).2)
  rcases h2 : splitLines (utf8Chunk (utf8Chunk [] S).1 c).2 with ⟨l2, r2⟩
  cases l2 <;>
    simp [feed, canonicalState, utf8Decode, utf8Chunk_append, hrem, h2,
      splitLines_append, splitMerge, List.filter_append, List.append_assoc]

lemma foldl_feed_canonical (chunks : List (List Nat)) :
    chunks.foldl feed initDecoder = canonicalState chunks.flatten := by
  induction chunks using List.reverseRecOn with
  | nil => simp [initDecoder, canonicalState, utf8Decode, utf8Chunk, splitLines]
  | append_singleton cs c ih =>
    simp [List.foldl_append, ih, feed_canonical]

/-- C1: chunk-boundary invariance of the frame decoder.  For every
partition of a byte stream into chunks (one-byte-at-a-time feeding,
zero-length chunks, splits inside the `data: ` marker, inside a multi-byte
character or at a line boundary are all particular partitions), the read
loop over the chunk sequence followed by the end-of-stream flush emits
exactly the same ordered frame sequence as feeding the concatenated stream
as a single chunk. -/
theorem frameDecoder_chunk_invariance (chunks : List (List Nat)) :
    decodeRun chunks = decodeRun [chunks.flatten] := by
  rw [decodeRun, decodeRun, foldl_feed_canonical, foldl_feed_canonical]
  simp

/-- C5: exactly-once frame delivery.  Over any chunking of the input, the
emitted frames are precisely the lines of the decoded input (terminated
lines plus the final unterminated line) that begin with `"data: "`, in
arrival order — so every frame corresponds to exactly one input line, no
frame is emitted twice, a pending unterminated line that begins with the
marker is emitted at end of stream, and the only lines lost are those not
beginning with the marker. -/
theorem frame_exactly_once (chunks : List (List Nat)) :
    decodeRun chunks = (inputLines chunks.flatten).filter isFrame := by
  simp [decodeRun, foldl_feed_canonical, finishFrames, canonicalState,
    inputLines, List.filter_append, List.filter_singleton]

/-! ## Lemmas: the synthetic progress estimator -/

lemma tick_bounds (prev r : ℚ) (h0 : 0 ≤ prev) (h99 : prev ≤ 99)
    (hr0 : 0 ≤ r) (hr1 : r < 1) :
    prev ≤ tick prev r ∧ 0 ≤ tick prev r ∧ tick prev r ≤ 99 := by
  unfold tick
  simp only [← min_assoc, min_self]
  split_ifs <;>
    exact ⟨le_min (by linarith) (by linarith),
      le_min (by norm_num) (by linarith), min_le_left _ _⟩

lemma tick_step (prev r : ℚ) (h0 : 0 ≤ prev) (h99 : prev ≤ 99)
    (hr0 : 0 ≤ r) (hr1 : r < 1) :
    ∃ s, 0 ≤ s ∧ s < bandWidth prev ∧ tick prev r = min 99 (prev + s) := by
  unfold tick bandWidth
  simp only [← min_assoc, min_self]
  split_ifs
  · exact ⟨r * 8, mul_nonneg hr0 (by norm_num), by linarith, rfl⟩
  · exact ⟨r * 5, mul_nonneg hr0 (by norm_num), by linarith, rfl⟩
  · exact ⟨r * 2, mul_nonneg hr0 (by norm_num), by linarith, rfl⟩
  · exact ⟨r * (1 / 2), mul_nonneg hr0 (by norm_num), by linarith, rfl⟩
  · exact ⟨r * (1 / 10), mul_nonneg hr0 (by norm_num), by linarith, rfl⟩

lemma scanl_tick_head (b : ℚ) (l : List ℚ) :
    (List.scanl tick b l).head? = some b := by
  cases l <;> simp [List.scanl]

lemma scanl_tick_props (rs : List ℚ) : ∀ p0 : ℚ, 0 ≤ p0 → p0 ≤ 99 →
    (∀ r ∈ rs, 0 ≤ r ∧ r < 1) →
    List.Chain' (· ≤ ·) (List.scanl tick p0 rs) ∧
      ∀ v ∈ List.scanl tick p0 rs, 0 ≤ v ∧ v ≤ 99 := by
  induction rs with
  | nil =>
    intro p0 h0 h99 _
    simp [List.scanl, h0, h99]
  | cons r rs ih =>
    intro p0 h0 h99 hrs
    obtain ⟨hr0, hr1⟩ := hrs r (List.mem_cons_self r rs)
    obtain ⟨hmono, hb0, hb99⟩ := tick_bounds p0 r h0 h99 hr0 hr1
    obtain ⟨ihc, ihb⟩ := ih (tick p0 r) hb0 hb99
      (fun x hx => hrs x (List.mem_cons_of_mem r hx))
    refine ⟨?_, ?_⟩
    · rw [List.scanl]
      refine List.chain'_cons'.2 ⟨?_, ihc⟩
      intro y hy
      rw [scanl_tick_head] at hy
      simp only [Option.mem_some_iff] at hy
      exact hy ▸ hmono
    · intro v hv
      rw [List.scanl] at hv
      rcases List.mem_cons.1 hv with h | h
      · exact h ▸ ⟨h0, h99⟩
      · exact ihb v h

/-- C3: tick policy of the fallback progress estimator.  For every current
value in `[0,99]` and every random draw in `[0,1)`, the next value is the
current value plus a step drawn from the band of the source's table —
width 8 below 30, 5 below 60, 2 below 85, 0.5 below 95, 0.1 from 95 on —
clamped to 99; consequently, for any tick sequence started at 0 the
trajectory is non-decreasing and always strictly below 100: the estimator
never self-reports 100. -/
theorem progressEstimator_tick_policy :
    (∀ prev r : ℚ, 0 ≤ prev → prev ≤ 99 → 0 ≤ r → r < 1 →
      (∃ s, 0 ≤ s ∧ s < bandWidth prev ∧ tick prev r = min 99 (prev + s)) ∧
        prev ≤ tick prev r ∧ tick prev r ≤ 99) ∧
    ∀ rs : List ℚ, (∀ r ∈ rs, 0 ≤ r ∧ r < 1) →
      List.Chain' (· ≤ ·) (List.scanl tick 0 rs) ∧
        ∀ v ∈ List.scanl tick 0 rs, v < 100 := by
  constructor
  · intro prev r h0 h99 hr0 hr1
    obtain ⟨hm, _, hb99⟩ := tick_bounds prev r h0 h99 hr0 hr1
    exact ⟨tick_step prev r h0 h99 hr0 hr1, hm, hb99⟩
  · intro rs hrs
    obtain ⟨hc, hb⟩ := scanl_tick_props rs 0 le_rfl (by norm_num) hrs
    exact ⟨hc, fun v hv => lt_of_le_of_lt (hb v hv).2 (by norm_num)⟩

/-- Witness for C3 at a concrete band, draw and tick sequence. -/
theorem progressEstimator_tick_policy_witness :
    ((∃ s, 0 ≤ s ∧ s < bandWidth 50 ∧ tick 50 (1 / 2) = min 99 (50 + s)) ∧
      (50 : ℚ) ≤ tick 50 (1 / 2) ∧ tick 50 (1 / 2) ≤ 99) ∧
    List.Chain' (· ≤ ·) (List.scanl tick 0 [(1 / 2 : ℚ)]) ∧
      ∀ v ∈ List.scanl tick 0 [(1 / 2 : ℚ)], v < 100 :=
  ⟨progressEstimator_tick_policy.1 50 (1 / 2) (by norm_num) (by norm_num)
      (by norm_num) (by norm_num),
   progressEstimator_tick_policy.2 [(1 / 2 : ℚ)]
     (by intro r hr; rw [List.mem_singleton] at hr; subst hr
         constructor <;> norm_num)⟩

/-! ## Lemmas: the event handler and the per-line loop -/

lemma isPrefixOf_append_self (a b : List Char) :
    a.isPrefixOf (a ++ b) = true := by
  induction a with
  | nil => simp [List.isPrefixOf]
  | cons x xs ih => simp [List.isPrefixOf, ih]

lemma lineOutcome_mark_warn (payload : List Char)
    (hp : parseJsonChars payload = none) :
    lineOutcome (sseMark ++ payload) = .warn := by
  have hd : (sseMark ++ payload).drop 6 = payload := List.drop_left sseMark payload
  have hf : isFrame (sseMark ++ payload) = true := isPrefixOf_append_self sseMark payload
  simp [lineOutcome, hf, hd, hp]

lemma lineOutcome_mark_event (payload : List Char) (j : Json) (d : SSEData)
    (hp : parseJsonChars payload = some j) (he : extractEvent j = some d) :
    lineOutcome (sseMark ++ payload) = .event d := by
  have hd : (sseMark ++ payload).drop 6 = payload := List.drop_left sseMark payload
  have hf : isFrame (sseMark ++ payload) = true := isPrefixOf_append_self sseMark payload
  simp [lineOutcome, hf, hd, hp, he]

/-- C2 is false on the code: the `progress` handler stores
`Math.round((procesadas / total) * 100)` without clamping — with
`procesadas = 2, total = 1` the stored percentage is 200, above the claimed
upper clamp 100 — and without a division-by-zero guard: with `total = 0`
the stored value is the non-finite result of the division (modelled as
`none`), not the unchanged previous percentage. -/
theorem progress_derivation_cex :
    (handleSSEEvent (.progress 2 1 (some "found") none none none none)
        initialState).1.progress = some 200 ∧
      ¬ (200 : ℚ) ≤ 100 ∧
      (handleSSEEvent (.progress 4 0 (some "found") none none none none)
          initialState).1.progress ≠ initialState.progress := by
  refine ⟨?_, by norm_num, ?_⟩
  · simp only [handleSSEEvent, addLog]
    rw [if_neg (by norm_num : ¬ (1 : ℚ) = 0), round_eq]
    norm_num
  · simp [handleSSEEvent, addLog, initialState]

/-- C2 (amended): on a `progress` event the stored percentage equals
`round(procesadas / total * 100)` with no clamping to `[0,100]`; when the
event's `total` is 0 the division produces a non-finite value that is
stored into the progress state (it is not left unchanged).  A log entry is
appended and no other field changes. -/
theorem progress_derivation_amended (s : AppState) (p t : ℚ)
    (status : Option String) (row : Option ℚ) (dir mun cp : Option String) :
    handleSSEEvent (.progress p t status row dir mun cp) s =
      ({ s with
          progress :=
            if t = 0 then none else some ((round (p / t * 100) : ℤ) : ℚ)
          logId := s.logId + 1
          logEntries := s.logEntries ++
            [⟨s.logId + 1, if status = some "found" then .found else .notFound,
              row, dir, mun, cp, none⟩] }, false) := rfl

/-- C4: on a `complete` event the final result counters are taken from the
event's stats fields whatever the accumulated state holds, the progress is
set to 100, a completion log entry is appended, and when the event carries
a (nonempty) base64 payload that decodes, the decoded bytes and the
event's filename are installed as the download artifact without any
exception. -/
theorem complete_event_transition (s : AppState) (p e n er : ℚ) (el : String)
    (f fname : Option String) :
    (handleSSEEvent (.complete p e n er el f fname) s).1.result =
        some ⟨p, e, n, er⟩ ∧
      (handleSSEEvent (.complete p e n er el f fname) s).1.progress =
        some 100 ∧
      (handleSSEEvent (.complete p e n er el f fname) s).1.logEntries =
        s.logEntries ++ [⟨s.logId + 1, .complete, none, none, none, none,
          some ("Completado en " ++ el)⟩] ∧
      ∀ b bytes, f = some b → b ≠ "" → atobModel b = some bytes →
        (handleSSEEvent (.complete p e n er el f fname) s).1.downloadUrl =
            some bytes ∧
          (handleSSEEvent (.complete p e n er el f fname) s).1.downloadFilename =
            fname ∧
          (handleSSEEvent (.complete p e n er el f fname) s).2 = false := by
  rcases f with _ | fv
  · simp [handleSSEEvent, addLog]
  · by_cases hfe : fv = ""
    · subst hfe
      simp only [handleSSEEvent, addLog]
      refine ⟨rfl, rfl, rfl, fun b bytes hb hnb _ => ?_⟩
      injection hb with hb'
      exact absurd hb'.symm hnb
    · rcases ha : atobModel fv with _ | bytes <;>
        simp_all [handleSSEEvent, addLog, hfe, ha]

/-- Witness for C4 on a concrete `complete` event with payload `"QUJD"`
(the base64 encoding of `ABC`). -/
theorem complete_event_transition_witness :
    (handleSSEEvent (.complete 2 1 1 0 "5s" (some "QUJD") (some "r.xlsx"))
        initialState).1.downloadUrl = some [65, 66, 67] ∧
    (handleSSEEvent (.complete 2 1 1 0 "5s" (some "QUJD") (some "r.xlsx"))
        initialState).1.result = some ⟨2, 1, 1, 0⟩ :=
  ⟨((complete_event_transition initialState 2 1 1 0 "5s" (some "QUJD")
        (some "r.xlsx")).2.2.2 "QUJD" [65, 66, 67] rfl (by decide) rfl).1,
   (complete_event_transition initialState 2 1 1 0 "5s" (some "QUJD")
      (some "r.xlsx")).1⟩

/-- C6: a frame whose payload is not valid JSON is discarded after a
console warning: the state is unchanged except for the warning counter (in
particular all counters, the log and the progress are untouched, and the
total model function shows no exception escapes), and processing simply
continues with the remaining frames. -/
theorem malformed_payload_resilience (s : AppState) (payload : List Char)
    (hbad : parseJsonChars payload = none) :
    processLine s (sseMark ++ payload) =
        { s with warnings := s.warnings + 1 } ∧
      ∀ rest, processLines s ((sseMark ++ payload) :: rest) =
        processLines { s with warnings := s.warnings + 1 } rest := by
  have h := lineOutcome_mark_warn payload hbad
  refine ⟨by simp [processLine, h], fun rest => ?_⟩
  simp [processLines, processLine, h]

/-- Witness for C6 at the concrete malformed frame payload from the
specification. -/
theorem malformed_payload_resilience_witness :
    processLine initialState (sseMark ++ "\x7bnot json".toList) =
      { initialState with warnings := initialState.warnings + 1 } :=
  (malformed_payload_resilience initialState "\x7bnot json".toList rfl).1

/-- C7: when the base64 payload of a `complete` event fails to decode, the
failure is fatal for the artifact step only: the result counters, the
progress value 100 and the completion log entry set before the `atob` call
are kept, no download artifact is installed, and at the loop level the
thrown error is caught and surfaced as a console warning while the stored
processing error stays untouched. -/
theorem artifact_decode_failure (s : AppState) (p e n er : ℚ) (el : String)
    (b64 : String) (fname : Option String) (hne : b64 ≠ "")
    (hfail : atobModel b64 = none) :
    handleSSEEvent (.complete p e n er el (some b64) fname) s =
        ({ s with
            progress := some 100
            result := some ⟨p, e, n, er⟩
            logId := s.logId + 1
            logEntries := s.logEntries ++ [⟨s.logId + 1, .complete, none,
              none, none, none, some ("Completado en " ++ el)⟩] }, true) ∧
      ∀ payload j, parseJsonChars payload = some j →
        extractEvent j = some (.complete p e n er el (some b64) fname) →
        processLine s (sseMark ++ payload) =
          { s with
            progress := some 100
            result := some ⟨p, e, n, er⟩
            logId := s.logId + 1
            logEntries := s.logEntries ++ [⟨s.logId + 1, .complete, none,
              none, none, none, some ("Completado en " ++ el)⟩]
            warnings := s.warnings + 1 } := by
  have h1 : handleSSEEvent (.complete p e n er el (some b64) fname) s =
      ({ s with
          progress := some 100
          result := some ⟨p, e, n, er⟩
          logId := s.logId + 1
          logEntries := s.logEntries ++ [⟨s.logId + 1, .complete, none,
            none, none, none, some ("Completado en " ++ el)⟩] }, true) := by
    simp [handleSSEEvent, addLog, hne, hfail]
  refine ⟨h1, fun payload j hp he => ?_⟩
  have h := lineOutcome_mark_event payload j _ hp he
  simp [processLine, h, h1]

/-- Witness for C7 at a concrete `complete` frame whose base64 payload
`"!!!"` is invalid. -/
theorem artifact_decode_failure_witness :
    processLine initialState (sseMark ++ badCompPayload) =
      { initialState with
        progress := some 100
        result := some ⟨2, 1, 1, 0⟩
        logId := initialState.logId + 1
        logEntries := initialState.logEntries ++ [⟨initialState.logId + 1,
          .complete, none, none, none, none, some ("Completado en " ++ "5s")⟩]
        warnings := initialState.warnings + 1 } :=
  (artifact_decode_failure initialState 2 1 1 0 "5s" "!!!" (some "r.xlsx")
      (by decide) rfl).2 badCompPayload
    (.obj [("type", .str "complete"),
           ("stats", .obj [("procesadas", .num 2), ("encontradas", .num 1),
                           ("no_encontradas", .num 1), ("errores", .num 0)]),
           ("elapsed", .str "5s"), ("file", .str "!!!"),
           ("filename", .str "r.xlsx")]) rfl rfl

/-- C8: frame condition on fatal transitions.  On an `error` event, and on
any transport-level failure (network error or thrown non-success status),
the state is changed only by appending one fatal log entry and storing the
error message: the log collected so far and every previously reported
count (result counters, totalRows, progress) are preserved. -/
theorem fatal_transition_frame_condition :
    (∀ (s : AppState) (m : String),
      handleSSEEvent (.error m) s =
        ({ s with
            error := some m
            logId := s.logId + 1
            logEntries := s.logEntries ++
              [⟨s.logId + 1, .error, none, none, none, none, some m⟩] },
         false)) ∧
    ∀ (s : AppState) (m : String),
      handleTransportError m s =
        { s with
          error := some m
          logId := s.logId + 1
          logEntries := s.logEntries ++
            [⟨s.logId + 1, .error, none, none, none, none,
              some ("Error: " ++ m)⟩] } :=
  ⟨fun _ _ => rfl, fun _ _ => rfl⟩

/-- C9: robustness of the fallback `X-Processing-Stats` summary.  An
absent header yields the all-zero summary; a header rejected by
`JSON.parse` yields the all-zero summary without crashing (the model is a
total function); a header that parses to an object takes each summary
field from the header with `?? 0` semantics, under which a missing field
defaults to 0 while a present value — including a present 0 — is kept
as-is. -/
theorem fallback_stats_header_robustness :
    fallbackSummary none = zeroSummary ∧
    (∀ h : String, parseJsonStr h = none →
      fallbackSummary (some h) = zeroSummary) ∧
    (∀ (h : String) (fs : List (String × Json)),
      parseJsonStr h = some (.obj fs) →
      fallbackSummary (some h) =
        ⟨nullishZero (getField fs "procesadas"),
         nullishZero (getField fs "encontradas"),
         nullishZero (getField fs "no_encontradas"),
         nullishZero (getField fs "errores")⟩) ∧
    nullishZero none = .num 0 ∧
    ∀ q : ℚ, nullishZero (some (.num q)) = .num q := by
  refine ⟨rfl, ?_, ?_, rfl, fun q => rfl⟩
  · intro h hh
    simp [fallbackSummary, statsOfHeader, hh]
  · intro h fs hh
    simp [fallbackSummary, statsOfHeader, hh]

/-- Witness for C9 at a concrete unparseable header value. -/
theorem fallback_stats_header_robustness_witness :
    fallbackSummary (some "not json") = zeroSummary :=
  fallback_stats_header_robustness.2.1 "not json" rfl

/-! ## Lemmas: concrete frames for the post-error continuation claim -/

lemma errLine_outcome : lineOutcome errLine = .event (.error "boom") := rfl

lemma progLine_outcome :
    lineOutcome progLine =
      .event (.progress 1 2 (some "found") (some 1) (some "A") (some "M")
        (some "28001")) := rfl

lemma compLine_outcome :
    lineOutcome compLine =
      .event (.complete 2 1 1 0 "5s" (some "QUJD") (some "r.xlsx")) := rfl

/-- C10: handling an `error` event does not terminate frame consumption.
Processing the frame sequence error–progress–complete from any state
applies all three events: the log receives all three entries in order, the
`complete` event still sets the result counters from its stats, sets the
progress to 100 and installs the decoded artifact, while the stored error
from the earlier `error` event remains set and no warning is emitted. -/
theorem error_event_nonterminating (s : AppState) :
    (processLines s [errLine, progLine, compLine]).error = some "boom" ∧
    (processLines s [errLine, progLine, compLine]).progress = some 100 ∧
    (processLines s [errLine, progLine, compLine]).result =
      some ⟨2, 1, 1, 0⟩ ∧
    (processLines s [errLine, progLine, compLine]).downloadUrl =
      some [65, 66, 67] ∧
    (processLines s [errLine, progLine, compLine]).downloadFilename =
      some "r.xlsx" ∧
    (processLines s [errLine, progLine, compLine]).logEntries =
      s.logEntries ++
        [⟨s.logId + 1, .error, none, none, none, none, some "boom"⟩,
         ⟨s.logId + 2, .found, some 1, some "A", some "M", some "28001",
           none⟩,
         ⟨s.logId + 3, .complete, none, none, none, none,
           some "Completado en 5s"⟩] ∧
    (processLines s [errLine, progLine, compLine]).totalRows = s.totalRows ∧
    (processLines s [errLine, progLine, compLine]).warnings = s.warnings := by
  have ht : (((2 : ℚ)) = 0) = False := by norm_num
  have hQ : atobModel "QUJD" = some [65, 66, 67] := rfl
  have hne : (("QUJD" : String) = "") = False := by decide
  have hstep : processLines s [errLine, progLine, compLine] =
      processLine (processLine (processLine s errLine) progLine) compLine :=
    rfl
  have he : ∀ st : AppState, processLine st errLine =
      { st with
        error := some "boom"
        logId := st.logId + 1
        logEntries := st.logEntries ++
          [⟨st.logId + 1, .error, none, none, none, none, some "boom"⟩] } := by
    intro st
    simp [processLine, errLine_outcome, handleSSEEvent, addLog]
  have hp : ∀ st : AppState, processLine st progLine =
      { st with
        progress := some ((round ((1 : ℚ) / 2 * 100) : ℤ) : ℚ)
        logId := st.logId + 1
        logEntries := st.logEntries ++
          [⟨st.logId + 1, .found, some 1, some "A", some "M", some "28001",
            none⟩] } := by
    intro st
    simp [processLine, progLine_outcome, handleSSEEvent, addLog, ht]
  have hc : ∀ st : AppState, processLine st compLine =
      { st with
        progress := some 100
        result := some ⟨2, 1, 1, 0⟩
        downloadUrl := some [65, 66, 67]
        downloadFilename := some "r.xlsx"
        logId := st.logId + 1
        logEntries := st.logEntries ++
          [⟨st.logId + 1, .complete, none, none, none, none,
            some "Completado en 5s"⟩] } := by
    intro st
    simp [processLine, compLine_outcome, handleSSEEvent, addLog, hQ, hne]
  rw [hstep, he, hp, hc]
  simp [add_assoc]

end GeocoderApp
